import Mathlib

/-!
Verification of the FHL Bible chatbot core (`src/chatbot.py`, `src/mcp_client.py`)
against its natural-language specification.

The Python code is shallowly embedded: pure shapes become Lean structures,
methods become functions over explicit state, exceptions become `Except`,
and the remote MCP server / Anthropic model endpoint become oracle
parameters (a function giving each remote call's outcome, and a script of
model responses).
-/

namespace FHLBible

/-! ## MCP client embedding (`src/mcp_client.py`) -/

/-- One entry of the cached tool catalog: the dict
`{"name": ..., "description": ..., "input_schema": ...}` built in
`FHLBibleClient.connect` and re-emitted by `get_tools_for_claude`. -/
structure ToolDict where
  name : String
  description : String
  input_schema : String
deriving DecidableEq, Repr

/-- One content piece of a remote `call_tool` result.  Python probes
`hasattr(c, 'text')`; a piece without a `text` attribute is modelled by
`text = none`. -/
structure ContentPiece where
  text : Option String
deriving DecidableEq, Repr

/-- The result object returned by `session.call_tool`. -/
structure RemoteResult where
  content : List ContentPiece
deriving DecidableEq, Repr

/-- Errors raised by the client layer: `RuntimeError("Not connected...")`
and a remote exception propagating out of `session.call_tool`. -/
inductive McpError where
  | notConnected (msg : String)
  | toolExecution (msg : String)
deriving DecidableEq, Repr

/-- Mutable state of `FHLBibleClient`: the optional live session reference
`self.session` and the cached catalog `self._tools`. -/
structure ClientState where
  session : Option Unit
  tools : List ToolDict
deriving DecidableEq, Repr

/-- `FHLBibleClient.__init__`: no session, empty tool cache. -/
def initClient : ClientState :=
  { session := none, tools := [] }

/-- Entering `FHLBibleClient.connect`: sets `self.session` and caches the
catalog built from the server's `list_tools` response. -/
def connect_enter (_c : ClientState) (listToolsResp : List ToolDict) : ClientState :=
  { session := some (), tools := listToolsResp }

/-- Leaving the `connect` scope: `self.session = None`; the cached
`self._tools` list is left in place. -/
def connect_exit (c : ClientState) : ClientState :=
  { c with session := none }

/-- `FHLBibleClient.get_tools_for_claude`: re-formats the cached `_tools`
dicts.  The method performs no check of `self.session`. -/
def get_tools_for_claude (c : ClientState) : List ToolDict :=
  c.tools.map (fun t =>
    { name := t.name, description := t.description, input_schema := t.input_schema })

/-- `get_tools_for_claude` viewed as a fallible Python call: the method
body contains no `raise` and cannot fail, so the wrapper always succeeds.
This `Except`-typed view is what the spec's catalog contract is compared
against. -/
def getToolsForClaudeE (c : ClientState) : Except McpError (List ToolDict) :=
  .ok (get_tools_for_claude c)

/-- The catalog accessor as §4.1 of the spec words it (a second definition
for refinement comparison only): "returns the cached catalog; fails with
`NotConnectedError` if called outside an active scope". -/
def catalogSpec (c : ClientState) : Except McpError (List ToolDict) :=
  match c.session with
  | none => .error (.notConnected "NotConnectedError")
  | some _ => .ok (get_tools_for_claude c)

/-- `FHLBibleClient.call_tool name arguments`: raises `RuntimeError` when
`self.session` is `None`; otherwise awaits the remote call (whose outcome
the oracle `remoteCall` supplies: a raised exception propagates), then
joins the `text` of the text-bearing content pieces with newlines, or
returns `""` when the result has no content. -/
def call_tool (c : ClientState)
    (remoteCall : String → List (String × String) → Except String RemoteResult)
    (name : String) (arguments : List (String × String)) : Except McpError String :=
  match c.session with
  | none => .error (.notConnected "Not connected. Use 'async with client.connect():'")
  | some _ =>
    match remoteCall name arguments with
    | .error e => .error (.toolExecution e)
    | .ok result =>
      if result.content.isEmpty then .ok ""
      else .ok (String.intercalate "\n" (result.content.filterMap (·.text)))

/-! ## Conversation history embedding (`src/chatbot.py`) -/

/-- One content block of an Anthropic model response: either a
`tool_use` block (`block.type == "tool_use"`, carrying `id`, `name`,
`input`) or a text block (`hasattr(block, "text")`). -/
inductive ContentBlock where
  | toolUse (id : String) (name : String) (input : List (String × String))
  | text (s : String)
deriving DecidableEq, Repr

/-- `block.type == "tool_use"`. -/
def ContentBlock.isToolUse : ContentBlock → Bool
  | .toolUse _ _ _ => true
  | .text _ => false

/-- The `id` of a `tool_use` block, `none` for text blocks. -/
def ContentBlock.toolUseId : ContentBlock → Option String
  | .toolUse id _ _ => some id
  | .text _ => none

/-- The `text` of a text block, `none` for `tool_use` blocks
(`hasattr(block, "text")`). -/
def ContentBlock.textOf : ContentBlock → Option String
  | .toolUse _ _ _ => none
  | .text s => some s

/-- A model response: `stop_reason` and the list of content blocks. -/
structure ModelResponse where
  stop_reason : String
  content : List ContentBlock
deriving DecidableEq, Repr

/-- A `tool_use` block in extracted form (the `tool_call` values the loop
works with). -/
structure ToolUseBlock where
  id : String
  name : String
  input : List (String × String)
deriving DecidableEq, Repr

/-- `[block for block in response.content if block.type == "tool_use"]`. -/
def toolUses (bs : List ContentBlock) : List ToolUseBlock :=
  bs.filterMap fun b =>
    match b with
    | .toolUse id name input => some ⟨id, name, input⟩
    | .text _ => none

/-- The ids of the `tool_use` blocks of a content list, in order. -/
def toolUseIds (bs : List ContentBlock) : List String :=
  bs.filterMap (·.toolUseId)

/-- One `tool_result` entry of the batch appended after tool execution.
The success dict in the code carries no `is_error` key, which the API
reads as `false`; the error dict sets `is_error: True`. -/
structure ToolResultBlock where
  tool_use_id : String
  content : String
  is_error : Bool
deriving DecidableEq, Repr

/-- The content payload of one history turn: plain text (user input /
final assistant answer), raw response blocks (assistant tool-request
turn), or a tool-result batch. -/
inductive TurnContent where
  | text (s : String)
  | blocks (bs : List ContentBlock)
  | toolResults (rs : List ToolResultBlock)
deriving DecidableEq, Repr

/-- One entry of `self.conversation_history`. -/
structure Turn where
  role : String
  content : TurnContent
deriving DecidableEq, Repr

/-- The user turn appended for an incoming user message. -/
def userTurn (msg : String) : Turn :=
  ⟨"user", .text msg⟩

/-- `BibleChatbot._prune_history` applied to a history list: when
`max_history > 0` and the history is strictly longer, keep the last
`max_history` entries (`self.conversation_history[-self.max_history:]`). -/
def pruneHistory (maxHistory : Nat) (hist : List Turn) : List Turn :=
  if 0 < maxHistory ∧ maxHistory < hist.length then
    hist.drop (hist.length - maxHistory)
  else hist

/-! ## Tool dispatch (`execute_tool` and `asyncio.gather` in
`BibleChatbot.chat`) -/

/-- The dict appended to `self.current_tool_calls` for one call. -/
structure ToolCallInfo where
  name : String
  input : List (String × String)
  id : String
deriving DecidableEq, Repr

/-- The dict appended to `self.current_tool_results` for one call.  The
success entry carries `result_length`, the failure entry carries `error`;
wall-clock `time` is not modelled. -/
structure ToolResultInfo where
  tool_name : String
  tool_use_id : String
  is_error : Bool
  result_length : Option Nat
  error : Option String
deriving DecidableEq, Repr

/-- The value returned by the inner coroutine `execute_tool` for one tool
call, given the outcome of the awaited remote
`self.mcp_client.call_tool`: the success `tool_result` dict, or on an
exception the error-tagged dict with content `f"Error: {str(e)}"`. -/
def execute_tool (outcome : Except String String) (tc : ToolUseBlock) : ToolResultBlock :=
  match outcome with
  | .ok r => { tool_use_id := tc.id, content := r, is_error := false }
  | .error e => { tool_use_id := tc.id, content := "Error: " ++ e, is_error := true }

/-- The `tool_call_info` dict `execute_tool` appends to
`self.current_tool_calls` (before its first await, hence in request
order). -/
def toolCallInfoOf (tc : ToolUseBlock) : ToolCallInfo :=
  { name := tc.name, input := tc.input, id := tc.id }

/-- The `tool_result_info` dict `execute_tool` appends to
`self.current_tool_results`.  In the running program these appends happen
in completion order; the list is modelled in request order, a choice that
only permutes the list and is immaterial to the properties proved (which
concern which iteration's records survive, not their order). -/
def toolResultInfoOf (outcome : Except String String) (tc : ToolUseBlock) : ToolResultInfo :=
  match outcome with
  | .ok r =>
    { tool_name := tc.name, tool_use_id := tc.id, is_error := false,
      result_length := some r.length, error := none }
  | .error e =>
    { tool_name := tc.name, tool_use_id := tc.id, is_error := true,
      result_length := none, error := some e }

/-- The value of `await asyncio.gather(*[execute_tool(tc) for tc in
tool_calls])`: one result per request, in request order, each computed
from its own call's remote outcome (`outcome` maps a call id to the
remote outcome of that call). -/
def gatherResults (outcome : String → Except String String) (tcs : List ToolUseBlock) :
    List ToolResultBlock :=
  tcs.map fun tc => execute_tool (outcome tc.id) tc

/-- One settling coroutine in the operational model of the concurrent
fan-out: the call at request index `i` completes and fills its own
result slot (its value depends only on its own request and remote
outcome, not on when the siblings finish). -/
def taskStep (outcome : String → Except String String) (tcs : List ToolUseBlock)
    (slots : List (Option ToolResultBlock)) (i : Nat) : List (Option ToolResultBlock) :=
  match tcs[i]? with
  | some tc => slots.set i (some (execute_tool (outcome tc.id) tc))
  | none => slots

/-- Operational model of the concurrent fan-out: `asyncio.gather`
allocates one result slot per request; the coroutines then settle in an
arbitrary completion order (`order` lists the request indices in the
order they complete), each filling only its own slot.  `runTasks` is the
slot array after all completions. -/
def runTasks (outcome : String → Except String String) (tcs : List ToolUseBlock)
    (order : List Nat) : List (Option ToolResultBlock) :=
  order.foldl (taskStep outcome tcs) (List.replicate tcs.length none)

/-- The assistant turn appended when the model requests tools:
`{"role": "assistant", "content": response.content}`. -/
def assistantTurn (resp : ModelResponse) : Turn :=
  ⟨"assistant", .blocks resp.content⟩

/-- The tool-result-batch turn appended after the gather:
`{"role": "user", "content": tool_results}`. -/
def toolResultTurn (outcome : String → Except String String) (tcs : List ToolUseBlock) : Turn :=
  ⟨"user", .toolResults (gatherResults outcome tcs)⟩

/-- `final_text`: the concatenation of `block.text` over the blocks of
the final response that have a `text` attribute. -/
def concatTexts (bs : List ContentBlock) : String :=
  String.join (bs.filterMap (·.textOf))

/-! ## The `BibleChatbot.chat` orchestration loop -/

/-- The observable outcome of one `chat` call: the final
`conversation_history`, the returned `final_text` (`none` when the model
script ran out while the model was still requesting tools — the run is
then truncated, mirroring a pending API call), the transcript sent on
each outbound model call, and the final values of
`self.current_tool_calls` / `self.current_tool_results` (the ones handed
to the logger). -/
structure ChatRun where
  history : List Turn
  finalText : Option String
  calls : List (List Turn)
  curToolCalls : List ToolCallInfo
  curToolResults : List ToolResultInfo
deriving DecidableEq, Repr

/-- The `while response.stop_reason == "tool_use"` loop of
`BibleChatbot.chat`.  `resp` is the response of the model call just made,
`script` the responses the endpoint will return to subsequent calls,
`calls` the transcripts sent so far.  Each iteration appends the
assistant turn, RESETS `current_tool_calls` / `current_tool_results` to
this iteration's records, appends the gathered tool-result batch, and
issues the next model call on the extended, unpruned history.  On exit
the final text turn is appended. -/
def chatLoop (outcome : String → Except String String) (script : List ModelResponse)
    (hist : List Turn) (resp : ModelResponse) (calls : List (List Turn))
    (curCalls : List ToolCallInfo) (curResults : List ToolResultInfo) : ChatRun :=
  if resp.stop_reason = "tool_use" then
    let tcs := toolUses resp.content
    let hist2 := hist ++ [assistantTurn resp, toolResultTurn outcome tcs]
    let curCalls2 := tcs.map toolCallInfoOf
    let curResults2 := tcs.map fun tc => toolResultInfoOf (outcome tc.id) tc
    match script with
    | [] => ⟨hist2, none, calls, curCalls2, curResults2⟩
    | r :: rest => chatLoop outcome rest hist2 r (calls ++ [hist2]) curCalls2 curResults2
  else
    let finalText := concatTexts resp.content
    ⟨hist ++ [⟨"assistant", .text finalText⟩], some finalText, calls, curCalls, curResults⟩

/-- `BibleChatbot.chat user_message`: appends the user turn, prunes,
then makes the initial model call (the endpoint answers `resp0`, and
`script` holds the answers to the further calls of this turn) and runs
the tool-use loop.  `curCalls0` / `curResults0` are the instance fields
`self.current_tool_calls` / `self.current_tool_results` as left by the
previous turn; the loop body overwrites them only inside a tool-use
iteration. -/
def chat (maxHistory : Nat) (outcome : String → Except String String) (userMsg : String)
    (hist0 : List Turn) (curCalls0 : List ToolCallInfo) (curResults0 : List ToolResultInfo)
    (resp0 : ModelResponse) (script : List ModelResponse) : ChatRun :=
  let hist1 := pruneHistory maxHistory (hist0 ++ [userTurn userMsg])
  chatLoop outcome script hist1 resp0 [hist1] curCalls0 curResults0

/-- The ids of all tool calls issued by assistant turns of a history, in
order. -/
def issuedToolCallIds (l : List Turn) : List String :=
  l.flatMap fun t =>
    if t.role = "assistant" then
      match t.content with
      | .blocks bs => toolUseIds bs
      | _ => []
    else []

/-! ## Logging tail of `chat` (lines 320–331) and `log_message` -/

/-- The end of `BibleChatbot.chat`: `if self.logger:
self.logger.log_message(...)` followed by `return final_text`.  The
oracle `logWrite` is the outcome of the `log_message` file write; the
call is NOT wrapped in any `try`/`except`, so a raised exception
propagates out of `chat` instead of reaching the `return`. -/
def chatLogAndReturn (loggerEnabled : Bool) (logWrite : Except String Unit)
    (finalText : String) : Except String String :=
  if loggerEnabled then
    match logWrite with
    | .ok _ => .ok finalText
    | .error e => .error e
  else .ok finalText

/-! ## Transcript well-formedness (the §3 invariant) -/

/-- Whether a turn is an assistant tool-request turn: role `assistant`
and at least one `tool_use` block in its content. -/
def Turn.isToolReq (t : Turn) : Bool :=
  t.role == "assistant" &&
  match t.content with
  | .blocks bs => bs.any (·.isToolUse)
  | _ => false

/-- Whether `u` is a tool-result-batch turn answering the assistant
tool-request turn `t`: role `user`, and its result entries carry exactly
the call ids `t` issued, in order. -/
def answersToB (t u : Turn) : Bool :=
  u.role == "user" &&
  match t.content, u.content with
  | .blocks bs, .toolResults rs => rs.map (·.tool_use_id) == toolUseIds bs
  | _, _ => false

/-- The §3 invariant on a transcript: every assistant tool-request turn
is immediately followed by a tool-result-batch turn addressing every call
identity it issued (in particular, before any further user turn). -/
def goodHistory : List Turn → Bool
  | [] => true
  | [t] => ! t.isToolReq
  | t :: u :: rest => (if t.isToolReq then answersToB t u else true) && goodHistory (u :: rest)

theorem goodHistory_tail {t : Turn} {l : List Turn} (h : goodHistory (t :: l) = true) :
    goodHistory l = true := by
  cases l with
  | nil => rfl
  | cons u rest =>
    simp only [goodHistory, Bool.and_eq_true] at h
    exact h.2

theorem goodHistory_append {l l' : List Turn} (h : goodHistory l = true)
    (h' : goodHistory l' = true) : goodHistory (l ++ l') = true := by
  induction l with
  | nil => simpa using h'
  | cons t rest ih =>
    cases rest with
    | nil =>
      simp only [goodHistory, Bool.not_eq_true'] at h
      cases l' with
      | nil => simpa [goodHistory] using h
      | cons u rest' =>
        simp only [List.singleton_append, goodHistory, Bool.and_eq_true]
        exact ⟨by simp [h], h'⟩
    | cons v rest' =>
      simp only [goodHistory, Bool.and_eq_true] at h
      simp only [List.cons_append, goodHistory, Bool.and_eq_true]
      exact ⟨h.1, by simpa using ih h.2⟩

theorem goodHistory_drop {l : List Turn} (k : Nat) (h : goodHistory l = true) :
    goodHistory (l.drop k) = true := by
  induction k generalizing l with
  | zero => simpa using h
  | succ n ih =>
    cases l with
    | nil => rfl
    | cons t rest => exact ih (goodHistory_tail h)

theorem goodHistory_prune {l : List Turn} (m : Nat) (h : goodHistory l = true) :
    goodHistory (pruneHistory m l) = true := by
  unfold pruneHistory
  split
  · exact goodHistory_drop _ h
  · exact h

/-- A turn whose role is `user` is never an assistant tool-request turn. -/
theorem isToolReq_of_user {t : Turn} (h : t.role = "user") : t.isToolReq = false := by
  simp [Turn.isToolReq, h]

theorem goodHistory_singleton {t : Turn} (h : t.isToolReq = false) :
    goodHistory [t] = true := by
  simp [goodHistory, h]

theorem goodHistory_pair {t u : Turn} (h : t.isToolReq = true → answersToB t u = true)
    (hu : u.isToolReq = false) : goodHistory [t, u] = true := by
  simp only [goodHistory, Bool.and_eq_true]
  constructor
  · split
    · exact h (by assumption)
    · rfl
  · simp [hu]

/-- The correlation id of an executed call is the id of its request,
whether the remote call succeeded or raised. -/
theorem execute_tool_id (o : Except String String) (tc : ToolUseBlock) :
    (execute_tool o tc).tool_use_id = tc.id := by
  cases o <;> rfl

theorem toolUses_map_id (bs : List ContentBlock) :
    (toolUses bs).map (·.id) = toolUseIds bs := by
  induction bs with
  | nil => rfl
  | cons b rest ih =>
    cases b <;> simp [toolUses, toolUseIds, ContentBlock.toolUseId] at ih ⊢ <;>
      simpa [toolUses, toolUseIds] using ih

theorem gatherResults_ids (outcome : String → Except String String) (bs : List ContentBlock) :
    (gatherResults outcome (toolUses bs)).map (·.tool_use_id) = toolUseIds bs := by
  rw [gatherResults, List.map_map]
  have : ((fun r : ToolResultBlock => r.tool_use_id) ∘
      fun tc : ToolUseBlock => execute_tool (outcome tc.id) tc) = fun tc : ToolUseBlock => tc.id := by
    funext tc
    exact execute_tool_id _ tc
  rw [this, toolUses_map_id]

/-- The tool-result-batch turn built by one loop iteration answers the
assistant turn it follows: role `user`, and its entries carry exactly the
issued call ids in order. -/
theorem answersToB_turn (outcome : String → Except String String) (resp : ModelResponse) :
    answersToB (assistantTurn resp) (toolResultTurn outcome (toolUses resp.content)) = true := by
  simp [answersToB, assistantTurn, toolResultTurn, gatherResults_ids]

theorem toolResultTurn_not_toolReq (outcome : String → Except String String)
    (tcs : List ToolUseBlock) : (toolResultTurn outcome tcs).isToolReq = false := by
  rfl

/-- The loop only appends to the record of transcripts sent to the
model. -/
theorem chatLoop_calls_extend (outcome : String → Except String String)
    (script : List ModelResponse) :
    ∀ hist resp calls curC curR, ∃ ex,
      (chatLoop outcome script hist resp calls curC curR).calls = calls ++ ex := by
  induction script with
  | nil =>
    intro hist resp calls curC curR
    rw [chatLoop]
    split
    · exact ⟨[], by simp⟩
    · exact ⟨[], by simp⟩
  | cons r rest ih =>
    intro hist resp calls curC curR
    rw [chatLoop]
    split
    · obtain ⟨ex, hex⟩ := ih _ r (calls ++ [_]) _ _
      exact ⟨(hist ++ [assistantTurn resp, toolResultTurn outcome (toolUses resp.content)]) :: ex,
        by rw [hex]; simp⟩
    · exact ⟨[], by simp⟩

/-- Invariant propagation through the tool-use loop: if the history so
far and every transcript already sent satisfy the §3 invariant, so does
every transcript the rest of the loop sends. -/
theorem chatLoop_calls_good (outcome : String → Except String String)
    (script : List ModelResponse) :
    ∀ hist resp calls curC curR,
      goodHistory hist = true → (∀ t ∈ calls, goodHistory t = true) →
      ∀ t ∈ (chatLoop outcome script hist resp calls curC curR).calls,
        goodHistory t = true := by
  induction script with
  | nil =>
    intro hist resp calls curC curR _ hcalls
    rw [chatLoop]
    split
    · exact hcalls
    · exact hcalls
  | cons r rest ih =>
    intro hist resp calls curC curR hhist hcalls
    rw [chatLoop]
    split
    · have hgood2 : goodHistory
          (hist ++ [assistantTurn resp, toolResultTurn outcome (toolUses resp.content)]) = true :=
        goodHistory_append hhist
          (goodHistory_pair (fun _ => answersToB_turn outcome resp)
            (toolResultTurn_not_toolReq _ _))
      refine ih _ r _ _ _ hgood2 ?_
      intro t ht
      rcases List.mem_append.mp ht with h | h
      · exact hcalls t h
      · rcases List.mem_singleton.mp h with rfl
        exact hgood2
    · exact hcalls

theorem taskStep_length (outcome : String → Except String String) (tcs : List ToolUseBlock)
    (slots : List (Option ToolResultBlock)) (i : Nat) :
    (taskStep outcome tcs slots i).length = slots.length := by
  unfold taskStep
  split
  · exact List.length_set slots i _
  · rfl

theorem foldl_taskStep_getElem? (outcome : String → Except String String)
    (tcs : List ToolUseBlock) :
    ∀ (order : List Nat) (init : List (Option ToolResultBlock)),
      init.length = tcs.length → ∀ j : Nat, j < tcs.length →
      (order.foldl (taskStep outcome tcs) init)[j]? =
        if j ∈ order then tcs[j]?.map (fun tc => some (execute_tool (outcome tc.id) tc))
        else init[j]? := by
  intro order
  induction order with
  | nil =>
    intro init _ j _
    simp
  | cons i rest ih =>
    intro init hlen j hj
    rw [List.foldl_cons,
      ih (taskStep outcome tcs init i) (by rw [taskStep_length, hlen]) j hj]
    by_cases hmem : j ∈ rest
    · simp [hmem]
    · simp only [hmem, if_false, List.mem_cons, or_false]
      by_cases hij : j = i
      · subst hij
        simp only [if_pos (Or.inl rfl), eq_self_iff_true, true_or, if_true]
        obtain ⟨tc, htc⟩ : ∃ tc, tcs[j]? = some tc := by
          cases h : tcs[j]? with
          | none =>
            exact absurd (List.getElem?_eq_none_iff.mp h) (Nat.not_le.mpr hj)
          | some tc => exact ⟨tc, rfl⟩
        rw [taskStep, htc]
        rw [List.getElem?_set_self']
        obtain ⟨x, hx⟩ : ∃ x, init[j]? = some x := by
          cases hinit : init[j]? with
          | none =>
            exact absurd (List.getElem?_eq_none_iff.mp hinit)
              (by rw [hlen]; exact Nat.not_le.mpr hj)
          | some x => exact ⟨x, rfl⟩
        rw [hx]
        rfl
      · have : j ∉ ([i] : List Nat) := by simp [hij]
        simp only [hij, or_false, if_false]
        rw [taskStep]
        split
        · rw [List.getElem?_set_ne (fun h => hij h.symm)]
        · rfl

theorem runTasks_length (outcome : String → Except String String) (tcs : List ToolUseBlock)
    (order : List Nat) : (runTasks outcome tcs order).length = tcs.length := by
  unfold runTasks
  have : ∀ (o : List Nat) (init : List (Option ToolResultBlock)),
      (o.foldl (taskStep outcome tcs) init).length = init.length := by
    intro o
    induction o with
    | nil => intro init; rfl
    | cons i rest ih =>
      intro init
      rw [List.foldl_cons, ih, taskStep_length]
  rw [this, List.length_replicate]

/-- Join-all result of the fan-out, for ANY completion order covering all
requests: the slot array is the request-order `gather` result.  This is
the completion-order-independence of the batch. -/
theorem runTasks_perm (outcome : String → Except String String) (tcs : List ToolUseBlock)
    (order : List Nat) (h : order.Perm (List.range tcs.length)) :
    runTasks outcome tcs order = (gatherResults outcome tcs).map some := by
  apply List.ext_getElem?
  intro j
  by_cases hj : j < tcs.length
  · have hmem : j ∈ order := h.mem_iff.mpr (List.mem_range.mpr hj)
    rw [runTasks, foldl_taskStep_getElem? outcome tcs order _ (List.length_replicate _ _) j hj,
      if_pos hmem, gatherResults, List.getElem?_map, List.getElem?_map]
    cases htc : tcs[j]? <;> rfl
  · have h1 : (runTasks outcome tcs order)[j]? = none :=
      List.getElem?_eq_none (by rw [runTasks_length]; exact Nat.le_of_not_lt hj)
    have h2 : ((gatherResults outcome tcs).map some)[j]? = none :=
      List.getElem?_eq_none
        (by rw [List.length_map, gatherResults, List.length_map]; exact Nat.le_of_not_lt hj)
    rw [h1, h2]

/-- Unfolding one loop iteration when the model requested tools and a
further scripted response exists: the loop appends the assistant turn and
the tool-result batch, records the extended transcript as sent, resets
the current-call accumulators to this iteration's records, and
recurses. -/
theorem chatLoop_cons_step (outcome : String → Except String String) (r : ModelResponse)
    (rest : List ModelResponse) (hist : List Turn) (resp : ModelResponse)
    (calls : List (List Turn)) (curC : List ToolCallInfo) (curR : List ToolResultInfo)
    (hstop : resp.stop_reason = "tool_use") :
    chatLoop outcome (r :: rest) hist resp calls curC curR =
      chatLoop outcome rest
        (hist ++ [assistantTurn resp, toolResultTurn outcome (toolUses resp.content)]) r
        (calls ++ [hist ++ [assistantTurn resp, toolResultTurn outcome (toolUses resp.content)]])
        ((toolUses resp.content).map toolCallInfoOf)
        ((toolUses resp.content).map fun tc => toolResultInfoOf (outcome tc.id) tc) := by
  rw [chatLoop, if_pos hstop]

/-- Unfolding the loop when the model requested tools but the script is
exhausted: the batch is still appended; the run is truncated before the
next model call. -/
theorem chatLoop_nil_toolUse (outcome : String → Except String String) (hist : List Turn)
    (resp : ModelResponse) (calls : List (List Turn)) (curC : List ToolCallInfo)
    (curR : List ToolResultInfo) (hstop : resp.stop_reason = "tool_use") :
    chatLoop outcome [] hist resp calls curC curR =
      ⟨hist ++ [assistantTurn resp, toolResultTurn outcome (toolUses resp.content)], none,
        calls, (toolUses resp.content).map toolCallInfoOf,
        (toolUses resp.content).map fun tc => toolResultInfoOf (outcome tc.id) tc⟩ := by
  rw [chatLoop, if_pos hstop]

/-- Unfolding the loop when the model produced a final answer. -/
theorem chatLoop_final (outcome : String → Except String String)
    (script : List ModelResponse) (hist : List Turn) (resp : ModelResponse)
    (calls : List (List Turn)) (curC : List ToolCallInfo) (curR : List ToolResultInfo)
    (hstop : ¬ resp.stop_reason = "tool_use") :
    chatLoop outcome script hist resp calls curC curR =
      ⟨hist ++ [⟨"assistant", .text (concatTexts resp.content)⟩],
        some (concatTexts resp.content), calls, curC, curR⟩ := by
  cases script <;> rw [chatLoop, if_neg hstop]

/-! ## Claim theorems -/

/-- C3: for every transcript and every `max_turns > 0`, pruning leaves
exactly `min(max_turns, original_length)` turns, always the most recent
ones in their original relative order (the retained list is a suffix of
the original); `max_turns == 0` leaves the transcript unchanged. -/
theorem prune_history_spec (l : List Turn) (m : Nat) :
    (0 < m → (pruneHistory m l).length = min m l.length ∧ (pruneHistory m l).IsSuffix l) ∧
    pruneHistory 0 l = l := by
  constructor
  · intro hm
    unfold pruneHistory
    split
    · rename_i hcond
      constructor
      · rw [List.length_drop, Nat.sub_sub_self (Nat.le_of_lt hcond.2),
          Nat.min_eq_left (Nat.le_of_lt hcond.2)]
      · exact List.drop_suffix _ _
    · rename_i hcond
      have hle : l.length ≤ m := Nat.le_of_not_lt fun hlt => hcond ⟨hm, hlt⟩
      exact ⟨by rw [Nat.min_eq_right hle], List.suffix_refl l⟩
  · unfold pruneHistory
    simp

theorem prune_history_spec_witness :
    (0 < 2 →
      (pruneHistory 2 [userTurn "a", userTurn "b", userTurn "c"]).length =
        min 2 [userTurn "a", userTurn "b", userTurn "c"].length ∧
      (pruneHistory 2 [userTurn "a", userTurn "b", userTurn "c"]).IsSuffix
        [userTurn "a", userTurn "b", userTurn "c"]) ∧
    pruneHistory 0 [userTurn "a", userTurn "b", userTurn "c"] =
      [userTurn "a", userTurn "b", userTurn "c"] :=
  prune_history_spec [userTurn "a", userTurn "b", userTurn "c"] 2

/-- C6: `call_tool` raises the not-connected `RuntimeError` when there is
no active session, and with an active session and a successful remote
call it returns the text content segments of the result joined together
(newline-separated, which is also `""` for a result with no text
segments). -/
theorem call_tool_spec (c : ClientState)
    (remoteCall : String → List (String × String) → Except String RemoteResult)
    (name : String) (args : List (String × String)) :
    (c.session = none →
      call_tool c remoteCall name args =
        .error (.notConnected "Not connected. Use 'async with client.connect():'")) ∧
    (∀ res, c.session = some () → remoteCall name args = .ok res →
      call_tool c remoteCall name args =
        .ok (String.intercalate "\n" (res.content.filterMap (·.text)))) := by
  constructor
  · intro hs
    rw [call_tool, hs]
  · intro res hs hr
    rw [call_tool, hs]
    simp only [hr]
    split
    · rename_i hempty
      rw [List.isEmpty_iff.mp hempty]
      rfl
    · rfl

theorem call_tool_spec_witness :
    call_tool ⟨none, []⟩ (fun _ _ => .ok ⟨[]⟩) "get_bible_verse" [] =
      .error (.notConnected "Not connected. Use 'async with client.connect():'") ∧
    call_tool ⟨some (), []⟩
        (fun _ _ => .ok ⟨[⟨some "In the beginning"⟩, ⟨none⟩, ⟨some "was the Word"⟩]⟩)
        "get_bible_verse" [] =
      .ok (String.intercalate "\n"
        (([⟨some "In the beginning"⟩, ⟨none⟩, ⟨some "was the Word"⟩] :
          List ContentPiece).filterMap (·.text))) :=
  ⟨(call_tool_spec ⟨none, []⟩ (fun _ _ => .ok ⟨[]⟩) "get_bible_verse" []).1 rfl,
   (call_tool_spec ⟨some (), []⟩
      (fun _ _ => .ok ⟨[⟨some "In the beginning"⟩, ⟨none⟩, ⟨some "was the Word"⟩]⟩)
      "get_bible_verse" []).2 _ rfl rfl⟩

/-- C10: with an active session and a successful remote call, the
returned text is the newline-joined sequence of the text-bearing content
pieces in order; in particular a result with no content, or whose pieces
all lack a `text` attribute, yields `.ok ""` — never a failure. -/
theorem call_tool_empty_result (c : ClientState)
    (remoteCall : String → List (String × String) → Except String RemoteResult)
    (name : String) (args : List (String × String)) (res : RemoteResult)
    (hs : c.session = some ()) (hr : remoteCall name args = .ok res) :
    call_tool c remoteCall name args =
      .ok (String.intercalate "\n" (res.content.filterMap (·.text))) ∧
    (res.content = [] → call_tool c remoteCall name args = .ok "") ∧
    ((∀ p ∈ res.content, p.text = none) → call_tool c remoteCall name args = .ok "") := by
  have hbase := (call_tool_spec c remoteCall name args).2 res hs hr
  refine ⟨hbase, ?_, ?_⟩
  · intro hempty
    rw [hbase, hempty]
    rfl
  · intro hnone
    rw [hbase, List.filterMap_eq_nil_iff.mpr hnone]
    rfl

theorem call_tool_empty_result_witness :
    call_tool ⟨some (), []⟩ (fun _ _ => .ok ⟨[⟨none⟩, ⟨none⟩]⟩) "search" [] =
      .ok (String.intercalate "\n"
        (([⟨none⟩, ⟨none⟩] : List ContentPiece).filterMap (·.text))) ∧
    (([⟨none⟩, ⟨none⟩] : List ContentPiece) = [] →
      call_tool ⟨some (), []⟩ (fun _ _ => .ok ⟨[⟨none⟩, ⟨none⟩]⟩) "search" [] = .ok "") ∧
    ((∀ p ∈ ([⟨none⟩, ⟨none⟩] : List ContentPiece), p.text = none) →
      call_tool ⟨some (), []⟩ (fun _ _ => .ok ⟨[⟨none⟩, ⟨none⟩]⟩) "search" [] = .ok "") :=
  call_tool_empty_result ⟨some (), []⟩ (fun _ _ => .ok ⟨[⟨none⟩, ⟨none⟩]⟩) "search" []
    ⟨[⟨none⟩, ⟨none⟩]⟩ rfl rfl

/-- C7 counterexample: on the freshly constructed client, which has no
active session, the catalog accessor does NOT fail — it returns the
(empty) cached catalog, differing from the spec's contract that demands a
not-connected failure there. -/
theorem catalog_not_connected_counterexample :
    initClient.session = none ∧
    getToolsForClaudeE initClient = .ok [] ∧
    getToolsForClaudeE initClient ≠ catalogSpec initClient := by
  refine ⟨rfl, rfl, fun h => Except.noConfusion h⟩

/-- C7 amended: `get_tools_for_claude` performs no connection check and
never raises: it returns the cached catalog regardless of session state —
the catalog cached at connection establishment when called inside a
scope, and the current (empty or stale) cache when called outside one. -/
theorem catalog_no_connection_check (c : ClientState) (ts : List ToolDict) :
    getToolsForClaudeE c = .ok (get_tools_for_claude c) ∧
    (c.session = none → getToolsForClaudeE c = .ok (get_tools_for_claude c)) ∧
    get_tools_for_claude (connect_enter c ts) = ts ∧
    get_tools_for_claude (connect_exit (connect_enter c ts)) = ts := by
  refine ⟨rfl, fun _ => rfl, ?_, ?_⟩ <;>
    simp [get_tools_for_claude, connect_enter, connect_exit]

theorem catalog_no_connection_check_witness :
    getToolsForClaudeE initClient = .ok (get_tools_for_claude initClient) ∧
    (initClient.session = none →
      getToolsForClaudeE initClient = .ok (get_tools_for_claude initClient)) ∧
    get_tools_for_claude (connect_enter initClient [⟨"get_bible_verse", "look up", "obj"⟩]) =
      [⟨"get_bible_verse", "look up", "obj"⟩] ∧
    get_tools_for_claude
        (connect_exit (connect_enter initClient [⟨"get_bible_verse", "look up", "obj"⟩])) =
      [⟨"get_bible_verse", "look up", "obj"⟩] :=
  catalog_no_connection_check initClient [⟨"get_bible_verse", "look up", "obj"⟩]

/-- C8 counterexample: with logging enabled and a failing log write, the
turn-processing operation does not return the assistant's answer — the
logging failure propagates out of `chat` (the `log_message` call is not
guarded by any exception handler). -/
theorem log_failure_propagates_counterexample :
    chatLogAndReturn true (.error "disk full") "the answer" = .error "disk full" ∧
    chatLogAndReturn true (.error "disk full") "the answer" ≠ .ok "the answer" := by
  refine ⟨rfl, fun h => Except.noConfusion h⟩

/-- C8 amended: a failure of the turn-log write propagates out of `chat`:
the turn returns the assistant's answer only when logging is disabled or
the write succeeds; when logging is enabled and the write raises, `chat`
raises that same error instead of returning. -/
theorem chat_log_outcome (enabled : Bool) (logWrite : Except String Unit)
    (finalText : String) :
    (logWrite = .ok () → chatLogAndReturn enabled logWrite finalText = .ok finalText) ∧
    (enabled = false → chatLogAndReturn enabled logWrite finalText = .ok finalText) ∧
    (∀ e, enabled = true → logWrite = .error e →
      chatLogAndReturn enabled logWrite finalText = .error e) := by
  refine ⟨?_, ?_, ?_⟩
  · intro h
    unfold chatLogAndReturn
    rw [h]
    cases enabled <;> rfl
  · intro h
    unfold chatLogAndReturn
    rw [h]
    rfl
  · intro e he hw
    unfold chatLogAndReturn
    rw [he, hw]
    rfl

theorem chat_log_outcome_witness :
    ((.ok () : Except String Unit) = .ok () →
      chatLogAndReturn true (.ok ()) "John 3:16 says..." = .ok "John 3:16 says...") ∧
    (true = false →
      chatLogAndReturn true (.ok ()) "John 3:16 says..." = .ok "John 3:16 says...") ∧
    (∀ e, true = true → (.ok () : Except String Unit) = .error e →
      chatLogAndReturn true (.ok ()) "John 3:16 says..." = .error e) :=
  chat_log_outcome true (.ok ()) "John 3:16 says..."

/-- C1: for a tool-call batch of size N settled in any completion order,
the join-all slot array equals the request-order gather result; the
tool-result-batch turn appended to the history carries exactly those N
entries, and the entry at each position carries the `tool_use_id` of its
originating request. -/
theorem tool_batch_correlation (outcome : String → Except String String)
    (resp : ModelResponse) (order : List Nat)
    (h : order.Perm (List.range (toolUses resp.content).length)) :
    runTasks outcome (toolUses resp.content) order =
      (gatherResults outcome (toolUses resp.content)).map some ∧
    (toolResultTurn outcome (toolUses resp.content)).content =
      TurnContent.toolResults (gatherResults outcome (toolUses resp.content)) ∧
    (gatherResults outcome (toolUses resp.content)).length =
      (toolUses resp.content).length ∧
    (∀ j : Nat, ((gatherResults outcome (toolUses resp.content))[j]?).map (·.tool_use_id) =
      ((toolUses resp.content)[j]?).map (·.id)) ∧
    (∀ hist calls curC curR, resp.stop_reason = "tool_use" →
      (chatLoop outcome [] hist resp calls curC curR).history =
        hist ++ [assistantTurn resp, toolResultTurn outcome (toolUses resp.content)]) := by
  refine ⟨runTasks_perm outcome _ order h, rfl, ?_, ?_, ?_⟩
  · rw [gatherResults, List.length_map]
  · intro j
    rw [gatherResults, List.getElem?_map]
    cases htc : (toolUses resp.content)[j]? with
    | none => rfl
    | some tc => simp [execute_tool_id]
  · intro hist calls curC curR hstop
    rw [chatLoop_nil_toolUse outcome hist resp calls curC curR hstop]

theorem tool_batch_correlation_witness :
    runTasks (fun _ => Except.ok "verse")
        (toolUses [ContentBlock.toolUse "c1" "get_bible_verse" [("book", "John")],
          ContentBlock.toolUse "c2" "search_verses" []]) [1, 0] =
      (gatherResults (fun _ => Except.ok "verse")
        (toolUses [ContentBlock.toolUse "c1" "get_bible_verse" [("book", "John")],
          ContentBlock.toolUse "c2" "search_verses" []])).map some ∧
    (toolResultTurn (fun _ => Except.ok "verse")
        (toolUses [ContentBlock.toolUse "c1" "get_bible_verse" [("book", "John")],
          ContentBlock.toolUse "c2" "search_verses" []])).content =
      TurnContent.toolResults (gatherResults (fun _ => Except.ok "verse")
        (toolUses [ContentBlock.toolUse "c1" "get_bible_verse" [("book", "John")],
          ContentBlock.toolUse "c2" "search_verses" []])) ∧
    (gatherResults (fun _ => Except.ok "verse")
        (toolUses [ContentBlock.toolUse "c1" "get_bible_verse" [("book", "John")],
          ContentBlock.toolUse "c2" "search_verses" []])).length =
      (toolUses [ContentBlock.toolUse "c1" "get_bible_verse" [("book", "John")],
        ContentBlock.toolUse "c2" "search_verses" []]).length ∧
    (∀ j : Nat, ((gatherResults (fun _ => Except.ok "verse")
        (toolUses [ContentBlock.toolUse "c1" "get_bible_verse" [("book", "John")],
          ContentBlock.toolUse "c2" "search_verses" []]))[j]?).map (·.tool_use_id) =
      ((toolUses [ContentBlock.toolUse "c1" "get_bible_verse" [("book", "John")],
        ContentBlock.toolUse "c2" "search_verses" []])[j]?).map (·.id)) ∧
    (∀ hist calls curC curR,
      (ModelResponse.mk "tool_use"
        [ContentBlock.toolUse "c1" "get_bible_verse" [("book", "John")],
          ContentBlock.toolUse "c2" "search_verses" []]).stop_reason = "tool_use" →
      (chatLoop (fun _ => Except.ok "verse") [] hist
          (ModelResponse.mk "tool_use"
            [ContentBlock.toolUse "c1" "get_bible_verse" [("book", "John")],
              ContentBlock.toolUse "c2" "search_verses" []]) calls curC curR).history =
        hist ++ [assistantTurn (ModelResponse.mk "tool_use"
            [ContentBlock.toolUse "c1" "get_bible_verse" [("book", "John")],
              ContentBlock.toolUse "c2" "search_verses" []]),
          toolResultTurn (fun _ => Except.ok "verse")
            (toolUses [ContentBlock.toolUse "c1" "get_bible_verse" [("book", "John")],
              ContentBlock.toolUse "c2" "search_verses" []])]) :=
  tool_batch_correlation (fun _ => Except.ok "verse")
    (ModelResponse.mk "tool_use"
      [ContentBlock.toolUse "c1" "get_bible_verse" [("book", "John")],
        ContentBlock.toolUse "c2" "search_verses" []]) [1, 0] (by decide)

/-- C2: when one call of a batch raises remotely, its entry in the batch
carries `is_error = true` and content `"Error: " ++ message`; any sibling
whose own remote call succeeds still gets its normal, non-error entry;
and the loop proceeds to the next model call (the record of transcripts
sent to the model strictly grows past this iteration) instead of
aborting. -/
theorem tool_error_isolated (outcome : String → Except String String)
    (resp r : ModelResponse) (rest : List ModelResponse) (hist : List Turn)
    (calls : List (List Turn)) (curC : List ToolCallInfo) (curR : List ToolResultInfo)
    (j : Nat) (tc : ToolUseBlock) (msg : String)
    (hstop : resp.stop_reason = "tool_use")
    (htc : (toolUses resp.content)[j]? = some tc)
    (herr : outcome tc.id = .error msg) :
    (gatherResults outcome (toolUses resp.content))[j]? =
      some ⟨tc.id, "Error: " ++ msg, true⟩ ∧
    (∀ (k : Nat) (tck : ToolUseBlock) (rk : String),
      (toolUses resp.content)[k]? = some tck → outcome tck.id = .ok rk →
      (gatherResults outcome (toolUses resp.content))[k]? = some ⟨tck.id, rk, false⟩) ∧
    calls.length + 1 ≤ (chatLoop outcome (r :: rest) hist resp calls curC curR).calls.length := by
  refine ⟨?_, ?_, ?_⟩
  · rw [gatherResults, List.getElem?_map, htc]
    simp [execute_tool, herr]
  · intro k tck rk htk hok
    rw [gatherResults, List.getElem?_map, htk]
    simp [execute_tool, hok]
  · rw [chatLoop_cons_step outcome r rest hist resp calls curC curR hstop]
    obtain ⟨ex, hex⟩ := chatLoop_calls_extend outcome rest
      (hist ++ [assistantTurn resp, toolResultTurn outcome (toolUses resp.content)]) r
      (calls ++ [hist ++ [assistantTurn resp, toolResultTurn outcome (toolUses resp.content)]])
      ((toolUses resp.content).map toolCallInfoOf)
      ((toolUses resp.content).map fun tc => toolResultInfoOf (outcome tc.id) tc)
    rw [hex, List.length_append, List.length_append, List.length_singleton]
    omega

theorem tool_error_isolated_witness :
    (gatherResults (fun id => if id = "bad" then Except.error "boom" else Except.ok "good")
        (toolUses [ContentBlock.toolUse "ok1" "get_bible_verse" [],
          ContentBlock.toolUse "bad" "search_verses" []]))[1]? =
      some ⟨"bad", "Error: " ++ "boom", true⟩ ∧
    (∀ (k : Nat) (tck : ToolUseBlock) (rk : String),
      (toolUses [ContentBlock.toolUse "ok1" "get_bible_verse" [],
        ContentBlock.toolUse "bad" "search_verses" []])[k]? = some tck →
      (if tck.id = "bad" then Except.error "boom" else Except.ok "good") = Except.ok rk →
      (gatherResults (fun id => if id = "bad" then Except.error "boom" else Except.ok "good")
        (toolUses [ContentBlock.toolUse "ok1" "get_bible_verse" [],
          ContentBlock.toolUse "bad" "search_verses" []]))[k]? =
        some ⟨tck.id, rk, false⟩) ∧
    ([] : List (List Turn)).length + 1 ≤
      (chatLoop (fun id => if id = "bad" then Except.error "boom" else Except.ok "good")
        [⟨"end_turn", [ContentBlock.text "partial data"]⟩, ⟨"end_turn", []⟩]
        [userTurn "q"]
        (ModelResponse.mk "tool_use" [ContentBlock.toolUse "ok1" "get_bible_verse" [],
          ContentBlock.toolUse "bad" "search_verses" []])
        [] [] []).calls.length :=
  tool_error_isolated (fun id => if id = "bad" then Except.error "boom" else Except.ok "good")
    (ModelResponse.mk "tool_use" [ContentBlock.toolUse "ok1" "get_bible_verse" [],
      ContentBlock.toolUse "bad" "search_verses" []])
    ⟨"end_turn", [ContentBlock.text "partial data"]⟩ [⟨"end_turn", []⟩]
    [userTurn "q"] [] [] [] 1 ⟨"bad", "search_verses", []⟩ "boom" rfl (by decide) rfl

/-- C4: in every transcript sent to the model during a `chat` turn
(starting from a well-formed prior history), every assistant turn that
contains tool-call requests is immediately followed by a
tool-result-batch turn carrying a result for every call identity it
issued — before any further user turn. -/
theorem every_transcript_well_formed (maxHistory : Nat)
    (outcome : String → Except String String) (userMsg : String) (hist0 : List Turn)
    (curC0 : List ToolCallInfo) (curR0 : List ToolResultInfo) (resp0 : ModelResponse)
    (script : List ModelResponse) (h : goodHistory hist0 = true) :
    ∀ t ∈ (chat maxHistory outcome userMsg hist0 curC0 curR0 resp0 script).calls,
      goodHistory t = true := by
  have h1 : goodHistory (pruneHistory maxHistory (hist0 ++ [userTurn userMsg])) = true :=
    goodHistory_prune _ (goodHistory_append h (goodHistory_singleton (isToolReq_of_user rfl)))
  intro t ht
  simp only [chat] at ht
  exact chatLoop_calls_good outcome script _ resp0 _ curC0 curR0 h1
    (fun u hu => by rcases List.mem_singleton.mp hu with rfl; exact h1) t ht

theorem every_transcript_well_formed_witness :
    goodHistory ([] : List Turn) = true ∧
    ∀ t ∈ (chat 4 (fun _ => Except.ok "verse") "John 3:16 in unv" [] [] []
        (ModelResponse.mk "tool_use" [ContentBlock.toolUse "c1" "get_bible_verse" []])
        [⟨"end_turn", [ContentBlock.text "the verse says"]⟩]).calls,
      goodHistory t = true :=
  ⟨rfl, every_transcript_well_formed 4 (fun _ => Except.ok "verse") "John 3:16 in unv"
    [] [] [] (ModelResponse.mk "tool_use" [ContentBlock.toolUse "c1" "get_bible_verse" []])
    [⟨"end_turn", [ContentBlock.text "the verse says"]⟩] rfl⟩

/-- C5 counterexample: a concrete turn with `max_history = 1` and one
tool-use iteration.  The continuation model call inside the loop is sent
a 3-turn transcript on which a pruning pass would have acted (it exceeds
the retention bound), so pruning is NOT applied immediately before every
outbound model call. -/
theorem prune_before_every_call_counterexample :
    (chat 1 (fun _ => Except.ok "x") "John 3:16?" [] [] []
        (ModelResponse.mk "tool_use" [ContentBlock.toolUse "t1" "get_bible_verse" []])
        [⟨"end_turn", [ContentBlock.text "done"]⟩]).calls.length = 2 ∧
    ((chat 1 (fun _ => Except.ok "x") "John 3:16?" [] [] []
        (ModelResponse.mk "tool_use" [ContentBlock.toolUse "t1" "get_bible_verse" []])
        [⟨"end_turn", [ContentBlock.text "done"]⟩]).calls.getD 1 []).length = 3 ∧
    pruneHistory 1 ((chat 1 (fun _ => Except.ok "x") "John 3:16?" [] [] []
        (ModelResponse.mk "tool_use" [ContentBlock.toolUse "t1" "get_bible_verse" []])
        [⟨"end_turn", [ContentBlock.text "done"]⟩]).calls.getD 1 []) ≠
      (chat 1 (fun _ => Except.ok "x") "John 3:16?" [] [] []
        (ModelResponse.mk "tool_use" [ContentBlock.toolUse "t1" "get_bible_verse" []])
        [⟨"end_turn", [ContentBlock.text "done"]⟩]).calls.getD 1 [] := by
  refine ⟨rfl, rfl, ?_⟩
  decide

/-- C5 amended: a pruning pass is applied immediately before the initial
model call of a turn only; each continuation call inside the tool-use
loop is sent the raw transcript extended with the assistant turn and the
tool-result batch, with no pruning pass. -/
theorem prune_only_before_initial_call (maxHistory : Nat)
    (outcome : String → Except String String) (userMsg : String) (hist0 : List Turn)
    (curC0 : List ToolCallInfo) (curR0 : List ToolResultInfo) (resp0 : ModelResponse)
    (script : List ModelResponse) :
    (chat maxHistory outcome userMsg hist0 curC0 curR0 resp0 script).calls.head? =
      some (pruneHistory maxHistory (hist0 ++ [userTurn userMsg])) ∧
    (∀ r rest, resp0.stop_reason = "tool_use" → script = r :: rest →
      (chat maxHistory outcome userMsg hist0 curC0 curR0 resp0 script).calls[1]? =
        some (pruneHistory maxHistory (hist0 ++ [userTurn userMsg]) ++
          [assistantTurn resp0, toolResultTurn outcome (toolUses resp0.content)])) := by
  constructor
  · simp only [chat]
    obtain ⟨ex, hex⟩ := chatLoop_calls_extend outcome script
      (pruneHistory maxHistory (hist0 ++ [userTurn userMsg])) resp0
      [pruneHistory maxHistory (hist0 ++ [userTurn userMsg])] curC0 curR0
    rw [hex]
    rfl
  · intro r rest hstop hscript
    subst hscript
    simp only [chat]
    rw [chatLoop_cons_step outcome r rest _ resp0 _ curC0 curR0 hstop]
    obtain ⟨ex, hex⟩ := chatLoop_calls_extend outcome rest
      (pruneHistory maxHistory (hist0 ++ [userTurn userMsg]) ++
        [assistantTurn resp0, toolResultTurn outcome (toolUses resp0.content)]) r
      ([pruneHistory maxHistory (hist0 ++ [userTurn userMsg])] ++
        [pruneHistory maxHistory (hist0 ++ [userTurn userMsg]) ++
          [assistantTurn resp0, toolResultTurn outcome (toolUses resp0.content)]])
      ((toolUses resp0.content).map toolCallInfoOf)
      ((toolUses resp0.content).map fun tc => toolResultInfoOf (outcome tc.id) tc)
    rw [hex]
    simp

theorem prune_only_before_initial_call_witness :
    (chat 1 (fun _ => Except.ok "x") "John 3:16?" [] [] []
        (ModelResponse.mk "tool_use" [ContentBlock.toolUse "t1" "get_bible_verse" []])
        [⟨"end_turn", [ContentBlock.text "done"]⟩]).calls.head? =
      some (pruneHistory 1 ([] ++ [userTurn "John 3:16?"])) ∧
    (∀ r rest,
      (ModelResponse.mk "tool_use"
        [ContentBlock.toolUse "t1" "get_bible_verse" []]).stop_reason = "tool_use" →
      ([⟨"end_turn", [ContentBlock.text "done"]⟩] : List ModelResponse) = r :: rest →
      (chat 1 (fun _ => Except.ok "x") "John 3:16?" [] [] []
          (ModelResponse.mk "tool_use" [ContentBlock.toolUse "t1" "get_bible_verse" []])
          [⟨"end_turn", [ContentBlock.text "done"]⟩]).calls[1]? =
        some (pruneHistory 1 ([] ++ [userTurn "John 3:16?"]) ++
          [assistantTurn (ModelResponse.mk "tool_use"
              [ContentBlock.toolUse "t1" "get_bible_verse" []]),
            toolResultTurn (fun _ => Except.ok "x")
              (toolUses [ContentBlock.toolUse "t1" "get_bible_verse" []])])) :=
  prune_only_before_initial_call 1 (fun _ => Except.ok "x") "John 3:16?" [] [] []
    (ModelResponse.mk "tool_use" [ContentBlock.toolUse "t1" "get_bible_verse" []])
    [⟨"end_turn", [ContentBlock.text "done"]⟩]

/-- C9: evaluation of `chat` on a turn with two tool-use iterations (call
`t1` in the first, `t2` in the second).  The turn issues two tool calls,
but the accumulators handed to the logger at the end of the turn hold
only the final iteration's single call: the per-iteration reset of
`current_tool_calls` / `current_tool_results` discards the records of
earlier iterations, so the turn log record does not contain every tool
call of the turn. -/
theorem log_misses_earlier_iterations :
    issuedToolCallIds (chat 10 (fun _ => Except.ok "verse text") "q" [] [] []
        (ModelResponse.mk "tool_use" [ContentBlock.toolUse "t1" "search_verses" []])
        [⟨"tool_use", [ContentBlock.toolUse "t2" "get_bible_verse" []]⟩,
          ⟨"end_turn", [ContentBlock.text "done"]⟩]).history = ["t1", "t2"] ∧
    (chat 10 (fun _ => Except.ok "verse text") "q" [] [] []
        (ModelResponse.mk "tool_use" [ContentBlock.toolUse "t1" "search_verses" []])
        [⟨"tool_use", [ContentBlock.toolUse "t2" "get_bible_verse" []]⟩,
          ⟨"end_turn", [ContentBlock.text "done"]⟩]).curToolCalls.map (·.id) = ["t2"] ∧
    (chat 10 (fun _ => Except.ok "verse text") "q" [] [] []
        (ModelResponse.mk "tool_use" [ContentBlock.toolUse "t1" "search_verses" []])
        [⟨"tool_use", [ContentBlock.toolUse "t2" "get_bible_verse" []]⟩,
          ⟨"end_turn", [ContentBlock.text "done"]⟩]).curToolResults.map (·.tool_use_id) =
      ["t2"] ∧
    (chat 10 (fun _ => Except.ok "verse text") "q" [] [] []
        (ModelResponse.mk "tool_use" [ContentBlock.toolUse "t1" "search_verses" []])
        [⟨"tool_use", [ContentBlock.toolUse "t2" "get_bible_verse" []]⟩,
          ⟨"end_turn", [ContentBlock.text "done"]⟩]).finalText = some "done" := by
  refine ⟨rfl, rfl, rfl, rfl⟩

end FHLBible
